import Mathlib

/-!
Verification of the goFinanceApp loan-amortization / payment-lifecycle core and the
payment-card pipeline.  Monetary values are embedded as exact rationals (`ℚ`); Go's
`math.Round(x*100)/100` becomes `round2`; calendar dates are day indices (`ℤ`); the
calendar-month arithmetic of the Go `time` library is abstracted as a parameter.
-/

namespace GoFinance

/-- Go `math.Round x`: round half away from zero, as an integer result. -/
def goRound (x : ℚ) : ℤ := if 0 ≤ x then ⌊x + 1/2⌋ else -⌊-x + 1/2⌋

/-- Go `math.Round (x*100) / 100`: round to 2 decimals, half away from zero. -/
def round2 (x : ℚ) : ℚ := (goRound (x * 100) : ℚ) / 100

/-- Embeds `models.PaymentStatus` (scheduled / completed / delayed). -/
inductive PaymentStatus where
  | scheduled
  | completed
  | delayed
deriving DecidableEq, Repr

/-- Embeds `models.LoanStatus` (active / completed / delayed / revoked). -/
inductive LoanStatus where
  | active
  | completed
  | delayed
  | revoked
deriving DecidableEq, Repr

/-- Embeds `models.PaymentPlan`: one installment of a loan schedule (fields the claims read). -/
structure PaymentPlan where
  installmentNum : ℕ
  dueDate : ℤ
  total : ℚ
  interestPortion : ℚ
  principalPortion : ℚ
  totalPayment : ℚ
  status : PaymentStatus
  paidDate : Option ℤ
deriving DecidableEq, Repr

/-- Embeds `models.Loan` (fields the claims read). -/
structure Loan where
  principal : ℚ
  interestRate : ℚ
  durationMonths : ℤ
  monthlyPayment : ℚ
  status : LoanStatus
deriving DecidableEq, Repr

/-- Embeds `LoanServiceImpl.CalculateMonthlyPayment`: returns 0 on a non-positive term,
simple division (rounded to 2 decimals) on a non-positive rate, otherwise the
annuity formula with `monthlyRate = interestRate/12/100`, rounded to 2 decimals. -/
def CalculateMonthlyPayment (principal interestRate : ℚ) (durationMonths : ℤ) : ℚ :=
  if durationMonths ≤ 0 then 0
  else if interestRate ≤ 0 then round2 (principal / (durationMonths : ℚ))
  else
    let monthlyRate := interestRate / 12 / 100
    round2 (principal * monthlyRate * (1 + monthlyRate) ^ durationMonths.toNat /
      ((1 + monthlyRate) ^ durationMonths.toNat - 1))

/-- Loop body of `LoanServiceImpl.GeneratePaymentPlan`: `k` counts the installments
still to emit (the Go loop runs `i = 1 .. duration`, so `k = 0` inside the `succ`
branch means `i = duration`, the final installment, whose principal portion is forced
to the exact remaining principal and whose total is recomputed).  `dueDateOf i` stands
for the Go `loan.IssueDate.AddDate(0, i, 0)` calendar computation. -/
def genPlansAux (monthlyRate : ℚ) (dueDateOf : ℕ → ℤ) :
    ℕ → ℕ → ℚ → ℚ → List PaymentPlan
  | 0, _, _, _ => []
  | Nat.succ k, i, remainingPrincipal, monthlyPayment =>
    let interestPayment := remainingPrincipal * monthlyRate
    let principalPayment := if k = 0 then remainingPrincipal
                            else monthlyPayment - interestPayment
    let monthlyPayment2 := if k = 0 then principalPayment + interestPayment
                           else monthlyPayment
    { installmentNum := i,
      dueDate := dueDateOf i,
      total := round2 (principalPayment + interestPayment),
      interestPortion := round2 interestPayment,
      principalPortion := round2 principalPayment,
      totalPayment := round2 monthlyPayment2,
      status := .scheduled,
      paidDate := none } ::
      genPlansAux monthlyRate dueDateOf k (i + 1)
        (remainingPrincipal - principalPayment) monthlyPayment2

/-- Embeds `LoanServiceImpl.GeneratePaymentPlan`. -/
def GeneratePaymentPlan (loan : Loan) (dueDateOf : ℕ → ℤ) : List PaymentPlan :=
  genPlansAux (loan.interestRate / 12 / 100) dueDateOf
    loan.durationMonths.toNat 1 loan.principal loan.monthlyPayment

/-! ### Rounding facts -/

theorem goRound_abs_le (y : ℚ) : |(goRound y : ℚ) - y| ≤ 1/2 := by
  unfold goRound
  split
  · rename_i h
    have h1 : ((⌊y + 1/2⌋ : ℤ) : ℚ) ≤ y + 1/2 := Int.floor_le _
    have h2 : y + 1/2 < (⌊y + 1/2⌋ : ℤ) + 1 := Int.lt_floor_add_one _
    rw [abs_le]
    constructor <;> push_cast at h1 h2 ⊢ <;> linarith
  · rename_i h
    have h1 : ((⌊-y + 1/2⌋ : ℤ) : ℚ) ≤ -y + 1/2 := Int.floor_le _
    have h2 : -y + 1/2 < (⌊-y + 1/2⌋ : ℤ) + 1 := Int.lt_floor_add_one _
    rw [abs_le]
    constructor <;> push_cast at h1 h2 ⊢ <;> linarith

theorem round2_abs_le (x : ℚ) : |round2 x - x| ≤ 1/200 := by
  have h : round2 x - x = ((goRound (x * 100) : ℚ) - x * 100) / 100 := by
    unfold round2; ring
  rw [h, abs_div, abs_of_pos (by norm_num : (0:ℚ) < 100)]
  have := goRound_abs_le (x * 100)
  linarith

/-! ### C2: CalculateMonthlyPayment -/

/-- C2: for every principal, rate and term, `CalculateMonthlyPayment` returns 0 when the
term is non-positive, the simple division `principal / term` rounded to 2 decimals when
the rate is non-positive, and otherwise the fixed annuity value
`P·r·(1+r)^n / ((1+r)^n − 1)` with `r = rate/12/100`, rounded to 2 decimals; in
particular `CalculateMonthlyPayment 100000 0 10 = 10000.00`. -/
theorem calculateMonthlyPayment_spec (principal interestRate : ℚ) (durationMonths : ℤ) :
    (durationMonths ≤ 0 → CalculateMonthlyPayment principal interestRate durationMonths = 0) ∧
    (0 < durationMonths → interestRate ≤ 0 →
      CalculateMonthlyPayment principal interestRate durationMonths
        = round2 (principal / (durationMonths : ℚ))) ∧
    (0 < durationMonths → 0 < interestRate →
      CalculateMonthlyPayment principal interestRate durationMonths
        = round2 (principal * (interestRate / 12 / 100)
            * (1 + interestRate / 12 / 100) ^ durationMonths.toNat /
            ((1 + interestRate / 12 / 100) ^ durationMonths.toNat - 1))) ∧
    CalculateMonthlyPayment 100000 0 10 = 10000 := by
  refine ⟨?_, ?_, ?_, by norm_num [CalculateMonthlyPayment, round2, goRound]⟩
  · intro h; simp [CalculateMonthlyPayment, h]
  · intro h1 h2; simp [CalculateMonthlyPayment, not_le.mpr h1, h2]
  · intro h1 h2; simp [CalculateMonthlyPayment, not_le.mpr h1, not_le.mpr h2]

/-- Witness for `calculateMonthlyPayment_spec`: the annuity branch at principal 1000,
rate 12 %, term 2 (507.51), and the zero-rate example. -/
theorem calculateMonthlyPayment_spec_witness :
    CalculateMonthlyPayment 1000 12 2
      = round2 (1000 * ((12:ℚ) / 12 / 100) * (1 + (12:ℚ) / 12 / 100) ^ (2:ℤ).toNat /
          ((1 + (12:ℚ) / 12 / 100) ^ (2:ℤ).toNat - 1)) ∧
    CalculateMonthlyPayment 1000 12 2 = 50751/100 ∧
    CalculateMonthlyPayment 100000 0 10 = 10000 :=
  ⟨(calculateMonthlyPayment_spec 1000 12 2).2.2.1 (by norm_num) (by norm_num),
    by
      have ht : ((2:ℤ)).toNat = 2 := rfl
      norm_num [CalculateMonthlyPayment, round2, goRound, ht],
    (calculateMonthlyPayment_spec 100000 0 10).2.2.2⟩

/-! ### C1: GeneratePaymentPlan -/

theorem genPlansAux_map_num (r : ℚ) (d : ℕ → ℤ) :
    ∀ (k i : ℕ) (rem mp : ℚ),
      (genPlansAux r d k i rem mp).map (fun p => p.installmentNum) = List.range' i k := by
  intro k
  induction k with
  | zero => intro i rem mp; simp [genPlansAux]
  | succ k ih =>
    intro i rem mp
    simp only [genPlansAux, List.map_cons, List.range'_succ, ih]

theorem genPlansAux_sum_principal (r : ℚ) (d : ℕ → ℤ) :
    ∀ (k : ℕ), k ≠ 0 → ∀ (i : ℕ) (rem mp : ℚ),
      |((genPlansAux r d k i rem mp).map (fun p => p.principalPortion)).sum - rem|
        ≤ (k : ℚ) / 200 := by
  intro k
  induction k with
  | zero => intro h; exact absurd rfl h
  | succ k ih =>
    intro _ i rem mp
    by_cases hk : k = 0
    · subst hk
      simp only [genPlansAux, if_pos rfl, List.map_cons, List.map_nil, List.sum_cons,
        List.sum_nil, add_zero]
      have h1 := round2_abs_le rem
      push_cast
      linarith [h1]
    · have hrec := ih hk (i + 1) (rem - (mp - rem * r)) mp
      simp only [genPlansAux, if_neg hk, List.map_cons, List.sum_cons]
      have h1 := round2_abs_le (mp - rem * r)
      have h2 : |round2 (mp - rem * r)
          + ((genPlansAux r d k (i + 1) (rem - (mp - rem * r)) mp).map
              (fun p => p.principalPortion)).sum - rem|
          ≤ |round2 (mp - rem * r) - (mp - rem * r)|
            + |((genPlansAux r d k (i + 1) (rem - (mp - rem * r)) mp).map
                (fun p => p.principalPortion)).sum - (rem - (mp - rem * r))| := by
        have := abs_add (round2 (mp - rem * r) - (mp - rem * r))
          (((genPlansAux r d k (i + 1) (rem - (mp - rem * r)) mp).map
              (fun p => p.principalPortion)).sum - (rem - (mp - rem * r)))
        calc |round2 (mp - rem * r)
              + ((genPlansAux r d k (i + 1) (rem - (mp - rem * r)) mp).map
                  (fun p => p.principalPortion)).sum - rem|
            = |(round2 (mp - rem * r) - (mp - rem * r))
              + (((genPlansAux r d k (i + 1) (rem - (mp - rem * r)) mp).map
                  (fun p => p.principalPortion)).sum - (rem - (mp - rem * r)))| := by
              ring_nf
          _ ≤ _ := this
      push_cast
      push_cast at hrec
      linarith [h1, h2, hrec]

/-- C1 (amended): for every loan with a positive term, the schedule produced by
`GeneratePaymentPlan` has contiguous sequence numbers `1..term`, and — because the final
installment's principal portion is forced to the exact remaining principal — the sum of
the stored (independently 2-decimal-rounded) principal portions differs from the loan
principal by at most half a cent per installment. -/
theorem generatePaymentPlan_contiguous_and_amortizes (loan : Loan) (dueDateOf : ℕ → ℤ)
    (h : loan.durationMonths.toNat ≠ 0) :
    ((GeneratePaymentPlan loan dueDateOf).map (fun p => p.installmentNum))
        = List.range' 1 loan.durationMonths.toNat ∧
    |(((GeneratePaymentPlan loan dueDateOf).map (fun p => p.principalPortion)).sum)
        - loan.principal| ≤ (loan.durationMonths.toNat : ℚ) / 200 :=
  ⟨genPlansAux_map_num _ _ _ _ _ _, genPlansAux_sum_principal _ _ _ h _ _ _⟩

/-- The loan refuting exact summation: principal 150, 1 % annual rate, term 2, monthly
payment as computed by `CalculateMonthlyPayment`. -/
def loanC1 : Loan :=
  { principal := 150, interestRate := 1, durationMonths := 2,
    monthlyPayment := CalculateMonthlyPayment 150 1 2, status := .active }

/-- C1 counterexample: for the loan with principal 150, rate 1 %, term 2 (monthly
payment 75.09), the stored principal portions are 74.97 and 75.04, summing to 150.01,
not 150: the sum of the stored principal portions does not equal the principal to the
cent. -/
theorem generatePaymentPlan_sum_ne_principal :
    ((GeneratePaymentPlan loanC1 (fun i => (i : ℤ))).map
        (fun p => p.principalPortion)).sum = 15001/100 ∧
    loanC1.principal = 150 ∧ ((15001 : ℚ)/100) ≠ 150 := by
  refine ⟨?_, rfl, by norm_num⟩
  have ht : ((2:ℤ)).toNat = 2 := rfl
  have hmp : CalculateMonthlyPayment 150 1 2 = 7509/100 := by
    norm_num [CalculateMonthlyPayment, round2, goRound, ht]
  norm_num [GeneratePaymentPlan, loanC1, hmp, genPlansAux, round2, goRound, ht]

/-- Witness for `generatePaymentPlan_contiguous_and_amortizes` at `loanC1`. -/
theorem generatePaymentPlan_contiguous_and_amortizes_witness :
    loanC1.durationMonths.toNat ≠ 0 ∧
    ((GeneratePaymentPlan loanC1 (fun i => (i : ℤ))).map (fun p => p.installmentNum))
        = List.range' 1 loanC1.durationMonths.toNat ∧
    |(((GeneratePaymentPlan loanC1 (fun i => (i : ℤ))).map
        (fun p => p.principalPortion)).sum) - loanC1.principal|
      ≤ (loanC1.durationMonths.toNat : ℚ) / 200 :=
  ⟨by decide,
    (generatePaymentPlan_contiguous_and_amortizes loanC1 (fun i => (i : ℤ)) (by decide)).1,
    (generatePaymentPlan_contiguous_and_amortizes loanC1 (fun i => (i : ℤ)) (by decide)).2⟩

/-! ### Scheduler: per-installment processing -/

/-- Embeds `models.Operation` (fields the claims read): the kind string and the signed amount. -/
structure Operation where
  kind : String
  sum : ℚ
deriving DecidableEq, Repr

/-- Modelled from the spec: `services.OperationService.CreateOperation`, consumed by the
scheduler, is not among the sources (only its call sites are).  Per §6 the ledger
collaborator applies the signed delta to the funding-account balance
(`adjustBalance(id, delta)`) and appends the operation to the append-only log, and §4.3
describes the scheduler's auto-debit as the same debit+operation sequence as
`makePayment`. -/
def CreateOperation (amount : ℚ) (kind : String) (funds : ℚ) (ops : List Operation) :
    ℚ × List Operation :=
  (funds + amount, ops ++ [{ kind := kind, sum := amount }])

/-- The state a scheduler tick threads through one installment: the funding-account
balance, the operation log, and the installment being processed. -/
structure TickState where
  funds : ℚ
  ops : List Operation
  plan : PaymentPlan
deriving DecidableEq, Repr

/-- Embeds `PaymentScheduler.handleOverduePayment`: skip if already Delayed, otherwise add a
10 % penalty to the installment total and mark it Delayed (persisted via
`UpdatePaymentPlan`; the follow-up notification is external and best-effort). -/
def handleOverduePayment (payment : PaymentPlan) : PaymentPlan :=
  if payment.status = .delayed then payment
  else
    let penaltyAmount := payment.total * (1/10)
    { payment with total := payment.total + penaltyAmount, status := .delayed }

/-- Embeds `PaymentScheduler.handleDuePayment`: if the funding account covers the installment
total, record the debit operation (`CreateOperation` with `-total`, kind
`"LOAN_PAYMENT"`), mark the installment Completed with the paid date, and persist it;
otherwise only a notification is sent and nothing changes. -/
def handleDuePayment (today : ℤ) (st : TickState) : TickState :=
  if st.plan.total ≤ st.funds then
    let r := CreateOperation (-st.plan.total) "LOAN_PAYMENT" st.funds st.ops
    { funds := r.1, ops := r.2,
      plan := { st.plan with status := .completed, paidDate := some today } }
  else st

/-- Per-installment body of `PaymentScheduler.processLoanPayments`: skip Completed
installments, handle overdue ones (due date before today), auto-debit ones due today;
the upcoming-reminder branch sends mail only and changes no state. -/
def processInstallment (today : ℤ) (st : TickState) : TickState :=
  if st.plan.status = .completed then st
  else if st.plan.dueDate < today then { st with plan := handleOverduePayment st.plan }
  else if st.plan.dueDate = today then handleDuePayment today st
  else st

/-! ### C3: overdue penalty, applied once -/

/-- C3: a tick applied to an installment due strictly before today in Scheduled status
adds exactly 10 % of the pre-penalty total and sets the status to Delayed, and applying
the same tick again (unchanged date) skips the now-Delayed installment, leaving the
whole state unchanged. -/
theorem overduePenalty_once_and_idempotent (today : ℤ) (st : TickState)
    (hdue : st.plan.dueDate < today) (hsch : st.plan.status = PaymentStatus.scheduled) :
    (processInstallment today st).plan.total
        = st.plan.total + st.plan.total * (1/10) ∧
    (processInstallment today st).plan.status = PaymentStatus.delayed ∧
    processInstallment today (processInstallment today st)
        = processInstallment today st := by
  have hnc : ¬ st.plan.status = PaymentStatus.completed := by rw [hsch]; intro h; cases h
  have hnd : ¬ st.plan.status = PaymentStatus.delayed := by rw [hsch]; intro h; cases h
  have h1 : processInstallment today st
      = { st with plan := handleOverduePayment st.plan } := by
    simp [processInstallment, hnc, hdue]
  have h2 : handleOverduePayment st.plan
      = { st.plan with
          total := st.plan.total + st.plan.total * (1/10)
          status := PaymentStatus.delayed } := by
    simp [handleOverduePayment, hnd]
  refine ⟨by rw [h1, h2], by rw [h1, h2], ?_⟩
  rw [h1, h2]
  simp [processInstallment, handleOverduePayment, hdue]

/-- Concrete overdue installment for the C3 witness. -/
def planW3 : PaymentPlan :=
  { installmentNum := 1, dueDate := 0, total := 100, interestPortion := 1,
    principalPortion := 99, totalPayment := 100, status := .scheduled, paidDate := none }

/-- Witness for `overduePenalty_once_and_idempotent` at a concrete overdue installment. -/
theorem overduePenalty_once_and_idempotent_witness :
    (processInstallment 1 ⟨50, [], planW3⟩).plan.total
        = planW3.total + planW3.total * (1/10) ∧
    (processInstallment 1 ⟨50, [], planW3⟩).plan.status = PaymentStatus.delayed ∧
    processInstallment 1 (processInstallment 1 ⟨50, [], planW3⟩)
        = processInstallment 1 ⟨50, [], planW3⟩ :=
  overduePenalty_once_and_idempotent 1 ⟨50, [], planW3⟩ (by decide) (by decide)

/-! ### C4: auto-debit of an installment due today -/

/-- C4: for an installment due exactly today (and not already Completed), the tick
completes it when the balance covers the total — status Completed, paid date set,
balance reduced by exactly the total, and exactly one debit operation appended — and
changes nothing when the balance falls short. -/
theorem dueToday_autodebit (today : ℤ) (st : TickState)
    (hdue : st.plan.dueDate = today) (hnc : st.plan.status ≠ PaymentStatus.completed) :
    (st.plan.total ≤ st.funds →
      (processInstallment today st).plan.status = PaymentStatus.completed ∧
      (processInstallment today st).plan.paidDate = some today ∧
      (processInstallment today st).funds = st.funds - st.plan.total ∧
      (processInstallment today st).ops
          = st.ops ++ [{ kind := "LOAN_PAYMENT", sum := -st.plan.total }]) ∧
    (st.funds < st.plan.total → processInstallment today st = st) := by
  have hnl : ¬ st.plan.dueDate < today := by rw [hdue]; exact lt_irrefl today
  constructor
  · intro hle
    simp [processInstallment, hnc, hnl, hdue, handleDuePayment, hle, CreateOperation,
      sub_eq_add_neg]
  · intro hlt
    have hnle : ¬ st.plan.total ≤ st.funds := not_le.mpr hlt
    simp [processInstallment, hnc, hnl, hdue, handleDuePayment, hnle]

/-- Concrete due-today installment for the C4 witness. -/
def planW4 : PaymentPlan :=
  { installmentNum := 2, dueDate := 7, total := 100, interestPortion := 1,
    principalPortion := 99, totalPayment := 100, status := .scheduled, paidDate := none }

/-- Witness for `dueToday_autodebit` at a concrete installment due today. -/
theorem dueToday_autodebit_witness :
    ((⟨200, [], planW4⟩ : TickState).plan.total ≤ (⟨200, [], planW4⟩ : TickState).funds →
      (processInstallment 7 ⟨200, [], planW4⟩).plan.status = PaymentStatus.completed ∧
      (processInstallment 7 ⟨200, [], planW4⟩).plan.paidDate = some 7 ∧
      (processInstallment 7 ⟨200, [], planW4⟩).funds
          = (⟨200, [], planW4⟩ : TickState).funds - planW4.total ∧
      (processInstallment 7 ⟨200, [], planW4⟩).ops
          = [] ++ [{ kind := "LOAN_PAYMENT", sum := -planW4.total }]) ∧
    ((⟨200, [], planW4⟩ : TickState).funds < planW4.total →
      processInstallment 7 ⟨200, [], planW4⟩ = ⟨200, [], planW4⟩) :=
  dueToday_autodebit 7 ⟨200, [], planW4⟩ (by decide) (by decide)

/-! ### MakePayment -/

/-- The error kinds `LoanServiceImpl.MakePayment` can return. -/
inductive MPError where
  | noPendingInstallment
  | insufficientFunds
deriving DecidableEq, Repr

/-- Persisted state of one loan together with its funding account and the operation
log: the calendar date, the account balance, the recorded operations, the stored
installment schedule, and the stored loan status. -/
structure SysState where
  today : ℤ
  funds : ℚ
  ops : List Operation
  plans : List PaymentPlan
  loanStatus : LoanStatus
deriving DecidableEq, Repr

/-- The selection loop of `MakePayment`: index of the first installment whose status is
Scheduled, scanned in schedule order. -/
def findFirstScheduledIdx : List PaymentPlan → Option ℕ
  | [] => none
  | p :: rest =>
    if p.status = PaymentStatus.scheduled then some 0
    else (findFirstScheduledIdx rest).map (· + 1)

/-- In-place update of the element at an index (the Go code mutates
`paymentPlans[i]` through the pointer `targetPayment`). -/
def modifyIdx (f : PaymentPlan → PaymentPlan) : ℕ → List PaymentPlan → List PaymentPlan
  | _, [] => []
  | 0, p :: rest => f p :: rest
  | Nat.succ n, p :: rest => p :: modifyIdx f n rest

/-- The `allPaid` loop of `MakePayment`: every installment other than the target (index
`ti`) has status Completed; `j` is the index of the head of the remaining list. -/
def allPaidAux (ti : ℕ) : ℕ → List PaymentPlan → Bool
  | _, [] => true
  | j, p :: rest =>
    (decide (j = ti) || decide (p.status = PaymentStatus.completed))
      && allPaidAux ti (j + 1) rest

/-- Result of a `MakePayment` call: the returned error (`none` = success), the persisted
state after the call, and the in-memory schedule slice as the function last saw it. -/
structure MakePaymentOutcome where
  res : Option MPError
  state : SysState
  localPlans : List PaymentPlan
deriving DecidableEq, Repr

/-- Embeds `LoanServiceImpl.MakePayment`: selects the first Scheduled installment, checks the
funding-account balance against the caller-supplied amount (no other validation of the
amount), debits the account, appends one withdraw operation, marks the selected
installment Completed with paid date = now — but only on the in-memory slice: the Go
code never calls `UpdatePaymentPlan`/`SavePaymentPlan` here, so the stored schedule
(`state.plans`) is unchanged — and finally persists loan status Completed when every
other installment of the loaded slice is Completed. -/
def MakePayment (amount : ℚ) (s : SysState) : MakePaymentOutcome :=
  match findFirstScheduledIdx s.plans with
  | none => { res := some .noPendingInstallment, state := s, localPlans := s.plans }
  | some ti =>
    if s.funds < amount then
      { res := some .insufficientFunds, state := s, localPlans := s.plans }
    else
      let funds2 := s.funds - amount
      let ops2 := s.ops ++ [{ kind := "withdraw", sum := amount }]
      let localPlans := modifyIdx
        (fun p => { p with status := PaymentStatus.completed, paidDate := some s.today })
        ti s.plans
      let loanStatus2 :=
        if allPaidAux ti 0 localPlans then LoanStatus.completed else s.loanStatus
      { res := none,
        state := { s with funds := funds2, ops := ops2, loanStatus := loanStatus2 },
        localPlans := localPlans }

/-! ### C5: the installment completion is never persisted -/

/-- An already-completed first installment. -/
def planW5a : PaymentPlan :=
  { installmentNum := 1, dueDate := 10, total := 50, interestPortion := 5,
    principalPortion := 45, totalPayment := 50, status := .completed, paidDate := some 10 }

/-- A scheduled second installment. -/
def planW5b : PaymentPlan :=
  { installmentNum := 2, dueDate := 40, total := 50, interestPortion := 4,
    principalPortion := 46, totalPayment := 50, status := .scheduled, paidDate := none }

/-- A scheduled third installment. -/
def planW5c : PaymentPlan :=
  { installmentNum := 3, dueDate := 70, total := 50, interestPortion := 3,
    principalPortion := 47, totalPayment := 50, status := .scheduled, paidDate := none }

/-- Concrete loan state for C5: one Completed and two Scheduled installments. -/
def stW5 : SysState :=
  { today := 41, funds := 1000, ops := [], plans := [planW5a, planW5b, planW5c],
    loanStatus := .active }

/-- C5, evaluated at a concrete state: `MakePayment` selects the first Scheduled
installment (index 1, skipping the Completed one), fails with the
no-pending-installment error when no Scheduled installment exists, and on success marks
the selection Completed with paid date = now — but only on the in-memory slice: the
stored schedule after the call is unchanged, its selected entry still Scheduled with no
paid date, refuting "the selected installment's stored status is Completed". -/
theorem makePayment_never_persists_completion :
    findFirstScheduledIdx stW5.plans = some 1 ∧
    (MakePayment 50 { stW5 with plans := [planW5a] }).res
        = some MPError.noPendingInstallment ∧
    (MakePayment 50 stW5).res = none ∧
    ((MakePayment 50 stW5).localPlans.get? 1).map (fun p => p.status)
        = some PaymentStatus.completed ∧
    ((MakePayment 50 stW5).localPlans.get? 1).map (fun p => p.paidDate)
        = some (some 41) ∧
    (MakePayment 50 stW5).state.plans = stW5.plans ∧
    ((MakePayment 50 stW5).state.plans.get? 1).map (fun p => p.status)
        = some PaymentStatus.scheduled ∧
    ((MakePayment 50 stW5).state.plans.get? 1).map (fun p => p.paidDate)
        = some none :=
  ⟨rfl, rfl, rfl, rfl, rfl, rfl, rfl, rfl⟩

/-! ### C10: no validation of the payment amount -/

/-- C10: `MakePayment` never validates its amount argument: whenever a Scheduled
installment exists and the balance is at least the amount — zero and negative amounts
included — the call succeeds, the persisted balance changes by exactly minus the
amount, and the selected installment is marked Completed (in the in-memory slice, cf.
C5) regardless of any relation between the amount and the installment total. -/
theorem makePayment_no_amount_validation (s : SysState) (amount : ℚ) (ti : ℕ)
    (hti : findFirstScheduledIdx s.plans = some ti)
    (hfunds : ¬ s.funds < amount) :
    (MakePayment amount s).res = none ∧
    (MakePayment amount s).state.funds = s.funds - amount ∧
    (MakePayment amount s).state.ops = s.ops ++ [{ kind := "withdraw", sum := amount }] ∧
    (MakePayment amount s).localPlans
        = modifyIdx
            (fun p => { p with status := PaymentStatus.completed,
                               paidDate := some s.today }) ti s.plans := by
  unfold MakePayment
  rw [hti]
  simp [hfunds]

/-- Concrete state for the C10 witness: balance 10, one Scheduled installment of
total 50. -/
def stW10 : SysState :=
  { today := 5, funds := 10, ops := [],
    plans := [{ installmentNum := 1, dueDate := 30, total := 50, interestPortion := 5,
                principalPortion := 45, totalPayment := 50, status := .scheduled,
                paidDate := none }],
    loanStatus := .active }

/-- Witness for `makePayment_no_amount_validation`: a negative amount (−5) against a
balance of 10 succeeds and raises the balance to 15, completing (in memory) an
installment whose total is 50. -/
theorem makePayment_no_amount_validation_witness :
    ((MakePayment (-5) stW10).res = none ∧
      (MakePayment (-5) stW10).state.funds = stW10.funds - (-5) ∧
      (MakePayment (-5) stW10).state.ops
          = stW10.ops ++ [{ kind := "withdraw", sum := -5 }] ∧
      (MakePayment (-5) stW10).localPlans
          = modifyIdx
              (fun p => { p with status := PaymentStatus.completed,
                                 paidDate := some stW10.today }) 0 stW10.plans) ∧
    (MakePayment (-5) stW10).state.funds = 15 := by
  refine ⟨makePayment_no_amount_validation stW10 (-5) 0 rfl (by norm_num [stW10]), ?_⟩
  rw [(makePayment_no_amount_validation stW10 (-5) 0 rfl (by norm_num [stW10])).2.1]
  norm_num [stW10]

/-! ### C9: a Delayed installment stays Delayed; such a loan never completes -/

theorem findFirstScheduledIdx_spec :
    ∀ (l : List PaymentPlan) (ti : ℕ), findFirstScheduledIdx l = some ti →
      ∃ p, l.get? ti = some p ∧ p.status = PaymentStatus.scheduled := by
  intro l
  induction l with
  | nil => intro ti h; cases h
  | cons p rest ih =>
    intro ti h
    by_cases hs : p.status = PaymentStatus.scheduled
    · simp only [findFirstScheduledIdx, if_pos hs, Option.some.injEq] at h
      subst h
      exact ⟨p, rfl, hs⟩
    · simp only [findFirstScheduledIdx, if_neg hs] at h
      cases hr : findFirstScheduledIdx rest with
      | none => rw [hr] at h; cases h
      | some k =>
        rw [hr] at h
        simp only [Option.map_some', Option.some.injEq] at h
        subst h
        obtain ⟨q, hq, hqs⟩ := ih k hr
        exact ⟨q, by simpa using hq, hqs⟩

theorem modifyIdx_get?_ne (f : PaymentPlan → PaymentPlan) :
    ∀ (l : List PaymentPlan) (n j : ℕ), j ≠ n →
      (modifyIdx f n l).get? j = l.get? j := by
  intro l
  induction l with
  | nil => intro n j _; cases n <;> simp [modifyIdx]
  | cons p rest ih =>
    intro n j hne
    cases n with
    | zero =>
      cases j with
      | zero => exact absurd rfl hne
      | succ j => simp [modifyIdx]
    | succ n =>
      cases j with
      | zero => simp [modifyIdx]
      | succ j =>
        simp only [modifyIdx, List.get?_cons_succ]
        exact ih n j (fun h => hne (by rw [h]))

theorem allPaidAux_spec (ti : ℕ) :
    ∀ (l : List PaymentPlan) (j : ℕ), allPaidAux ti j l = true →
      ∀ (k : ℕ) (p : PaymentPlan), l.get? k = some p → j + k ≠ ti →
        p.status = PaymentStatus.completed := by
  intro l
  induction l with
  | nil => intro j _ k p hk; cases k <;> cases hk
  | cons q rest ih =>
    intro j h k p hk hne
    simp only [allPaidAux, Bool.and_eq_true, Bool.or_eq_true, decide_eq_true_eq] at h
    cases k with
    | zero =>
      simp only [List.get?_cons_zero, Option.some.injEq] at hk
      subst hk
      rcases h.1 with hji | hc
      · exact absurd (by omega : j + 0 = ti) hne
      · exact hc
    | succ k =>
      simp only [List.get?_cons_succ] at hk
      exact ih (j + 1) h.2 k p hk (by omega)

theorem makePayment_state_plans_today (amount : ℚ) (s : SysState) :
    (MakePayment amount s).state.plans = s.plans ∧
    (MakePayment amount s).state.today = s.today := by
  unfold MakePayment
  cases h : findFirstScheduledIdx s.plans with
  | none => exact ⟨rfl, rfl⟩
  | some ti => by_cases hf : s.funds < amount <;> simp [hf]

theorem makePayment_loanStatus_of_delayed (amount : ℚ) (s : SysState)
    (j : ℕ) (pd : PaymentPlan) (hj : s.plans.get? j = some pd)
    (hd : pd.status = PaymentStatus.delayed) :
    (MakePayment amount s).state.loanStatus = s.loanStatus := by
  unfold MakePayment
  cases hffs : findFirstScheduledIdx s.plans with
  | none => rfl
  | some ti =>
    by_cases hf : s.funds < amount
    · simp [hf]
    · obtain ⟨pt, hti, hts⟩ := findFirstScheduledIdx_spec s.plans ti hffs
      have hne : j ≠ ti := by
        intro he
        subst he
        rw [hj] at hti
        injection hti with h2
        rw [← h2] at hts
        rw [hd] at hts
        cases hts
      have hlj : (modifyIdx
          (fun p => { p with status := PaymentStatus.completed,
                             paidDate := some s.today }) ti s.plans).get? j = some pd := by
        rw [modifyIdx_get?_ne _ s.plans ti j hne, hj]
      have hap : allPaidAux ti 0 (modifyIdx
          (fun p => { p with status := PaymentStatus.completed,
                             paidDate := some s.today }) ti s.plans) = false := by
        cases hh : allPaidAux ti 0 (modifyIdx
            (fun p => { p with status := PaymentStatus.completed,
                               paidDate := some s.today }) ti s.plans) with
        | false => rfl
        | true =>
          have hcp := allPaidAux_spec ti _ 0 hh j pd hlj (by omega)
          rw [hd] at hcp
          cases hcp
      simp [hf, hap]

theorem processInstallment_preserves_inv (today : ℤ) (ts : TickState)
    (hinv : ts.plan.status = PaymentStatus.delayed → ts.plan.dueDate < today) :
    ((processInstallment today ts).plan.status = PaymentStatus.delayed →
      (processInstallment today ts).plan.dueDate < today) ∧
    (ts.plan.status = PaymentStatus.delayed →
      (processInstallment today ts).plan = ts.plan) := by
  unfold processInstallment handleOverduePayment handleDuePayment
  split_ifs with hc hlt hd heq hfd
  · exact ⟨hinv, fun _ => rfl⟩
  · exact ⟨fun _ => hinv hd, fun _ => rfl⟩
  · exact ⟨fun _ => hlt, fun h => absurd h hd⟩
  · refine ⟨fun h => absurd h (by decide), fun hdl => ?_⟩
    exact absurd (hinv hdl) (by rw [heq]; exact lt_irrefl today)
  · exact ⟨hinv, fun _ => rfl⟩
  · exact ⟨hinv, fun _ => rfl⟩

/-- One scheduler tick over a whole schedule (`processPayments` →
`processLoanPayments`): fold every installment through `processInstallment`, threading
the account balance and the operation log. -/
def processAll (today : ℤ) : ℚ → List Operation → List PaymentPlan →
    ℚ × List Operation × List PaymentPlan
  | f, o, [] => (f, o, [])
  | f, o, p :: rest =>
    let ts := processInstallment today { funds := f, ops := o, plan := p }
    let r := processAll today ts.funds ts.ops rest
    (r.1, r.2.1, ts.plan :: r.2.2)

/-- Embeds `PaymentScheduler.processPayments` for one loan: only loans with status Active are
loaded and processed; the tick never touches the loan status itself. -/
def runTick (s : SysState) : SysState :=
  if s.loanStatus = LoanStatus.active then
    { s with
      funds := (processAll s.today s.funds s.ops s.plans).1
      ops := (processAll s.today s.funds s.ops s.plans).2.1
      plans := (processAll s.today s.funds s.ops s.plans).2.2 }
  else s

theorem processAll_delayed (today : ℤ) :
    ∀ (plans : List PaymentPlan) (f : ℚ) (o : List Operation),
      (∀ p ∈ plans, p.status = PaymentStatus.delayed → p.dueDate < today) →
      (∀ q ∈ (processAll today f o plans).2.2,
          q.status = PaymentStatus.delayed → q.dueDate < today) ∧
      (∀ p ∈ plans, p.status = PaymentStatus.delayed →
          p ∈ (processAll today f o plans).2.2) := by
  intro plans
  induction plans with
  | nil => intro f o _; simp [processAll]
  | cons p rest ih =>
    intro f o hall
    have hp := hall p (List.mem_cons_self p rest)
    have hzi := processInstallment_preserves_inv today { funds := f, ops := o, plan := p } hp
    obtain ⟨ihInv, ihMem⟩ := ih
      (processInstallment today { funds := f, ops := o, plan := p }).funds
      (processInstallment today { funds := f, ops := o, plan := p }).ops
      (fun q hq => hall q (List.mem_cons_of_mem _ hq))
    constructor
    · intro q hq hdq
      simp only [processAll, List.mem_cons] at hq
      rcases hq with rfl | hq
      · exact hzi.1 hdq
      · exact ihInv q hq hdq
    · intro pp hpp hdp
      rcases List.mem_cons.mp hpp with rfl | hmem
      · have hfix := hzi.2 hdp
        simp only [processAll, List.mem_cons]
        exact Or.inl hfix.symm
      · simp only [processAll, List.mem_cons]
        exact Or.inr (ihMem pp hmem hdp)

theorem processAll_delayed_get? (today : ℤ) :
    ∀ (plans : List PaymentPlan) (f : ℚ) (o : List Operation),
      (∀ p ∈ plans, p.status = PaymentStatus.delayed → p.dueDate < today) →
      ∀ (j : ℕ) (p : PaymentPlan), plans.get? j = some p →
        p.status = PaymentStatus.delayed →
        (processAll today f o plans).2.2.get? j = some p := by
  intro plans
  induction plans with
  | nil => intro f o _ j p hj; cases j <;> cases hj
  | cons q rest ih =>
    intro f o hall j p hj hd
    cases j with
    | zero =>
      simp only [List.get?_cons_zero, Option.some.injEq] at hj
      subst hj
      have hq := hall q (List.mem_cons_self q rest)
      have hfix :=
        (processInstallment_preserves_inv today { funds := f, ops := o, plan := q } hq).2 hd
      simp only [processAll, List.get?_cons_zero, hfix]
    | succ j =>
      simp only [List.get?_cons_succ] at hj
      simp only [processAll, List.get?_cons_succ]
      exact ih _ _ (fun r hr => hall r (List.mem_cons_of_mem _ hr)) j p hj hd

/-- The operations of the core that can change this state: a manual `MakePayment`
call, a scheduler tick, and the passing of a calendar day. -/
inductive Step : SysState → SysState → Prop where
  | makePayment (amount : ℚ) (s : SysState) : Step s (MakePayment amount s).state
  | tick (s : SysState) : Step s (runTick s)
  | nextDay (s : SysState) : Step s { s with today := s.today + 1 }

/-- C9: under the invariant that every Delayed installment is already past due, each
core operation preserves that invariant, carries every Delayed installment unchanged —
still Delayed, at its position in the schedule, never set to Completed — into the
post-state (MakePayment only selects Scheduled installments and never persists schedule
changes, the auto-debit path only fires on installments due exactly today, which the
invariant rules out for Delayed ones, and the overdue handler returns immediately for
already-Delayed installments), and never moves a loan holding a Delayed installment to
Completed status. -/
theorem delayed_never_completed (s s2 : SysState) (hstep : Step s s2)
    (hinv : ∀ p ∈ s.plans, p.status = PaymentStatus.delayed → p.dueDate < s.today) :
    (∀ p ∈ s2.plans, p.status = PaymentStatus.delayed → p.dueDate < s2.today) ∧
    (∀ (j : ℕ) (p : PaymentPlan), s.plans.get? j = some p →
        p.status = PaymentStatus.delayed → s2.plans.get? j = some p) ∧
    ((∃ p ∈ s.plans, p.status = PaymentStatus.delayed) →
        s.loanStatus ≠ LoanStatus.completed → s2.loanStatus ≠ LoanStatus.completed) := by
  cases hstep with
  | makePayment amount s =>
    obtain ⟨hpl, htd⟩ := makePayment_state_plans_today amount s
    refine ⟨?_, ?_, ?_⟩
    · rw [hpl, htd]; exact hinv
    · intro j p hj _
      rw [hpl]; exact hj
    · rintro ⟨p, hp, hd⟩ hls
      obtain ⟨j, hj⟩ := List.get?_of_mem hp
      rw [makePayment_loanStatus_of_delayed amount s j p hj hd]
      exact hls
  | tick s =>
    unfold runTick
    by_cases ha : s.loanStatus = LoanStatus.active
    · obtain ⟨hI, _⟩ := processAll_delayed s.today s.plans s.funds s.ops hinv
      simp only [ha, if_pos, ite_true]
      refine ⟨?_, ?_, ?_⟩
      · exact hI
      · exact fun j p hj hd =>
          processAll_delayed_get? s.today s.plans s.funds s.ops hinv j p hj hd
      · intro _ h; exact h
    · simp only [ha, if_neg, ite_false]
      exact ⟨hinv, fun j p hj _ => hj, fun _ h => h⟩
  | nextDay s =>
    refine ⟨?_, ?_, ?_⟩
    · intro p hp hd
      exact lt_trans (hinv p hp hd) (lt_add_one s.today)
    · intro j p hj _
      exact hj
    · intro _ h; exact h

/-- A Delayed, past-due installment for the C9 witness. -/
def planW9 : PaymentPlan :=
  { installmentNum := 1, dueDate := 0, total := 110, interestPortion := 1,
    principalPortion := 99, totalPayment := 100, status := .delayed, paidDate := none }

/-- Concrete active loan state holding a Delayed installment. -/
def stW9 : SysState :=
  { today := 3, funds := 500, ops := [], plans := [planW9], loanStatus := .active }

/-- Witness for `delayed_never_completed`: the day-advance step on a state with one
Delayed installment. -/
theorem delayed_never_completed_witness :
    (∀ p ∈ ({ stW9 with today := stW9.today + 1 } : SysState).plans,
        p.status = PaymentStatus.delayed
          → p.dueDate < ({ stW9 with today := stW9.today + 1 } : SysState).today) ∧
    (∀ (j : ℕ) (p : PaymentPlan), stW9.plans.get? j = some p →
        p.status = PaymentStatus.delayed →
        ({ stW9 with today := stW9.today + 1 } : SysState).plans.get? j = some p) ∧
    ((∃ p ∈ stW9.plans, p.status = PaymentStatus.delayed) →
        stW9.loanStatus ≠ LoanStatus.completed →
        ({ stW9 with today := stW9.today + 1 } : SysState).loanStatus
          ≠ LoanStatus.completed) :=
  delayed_never_completed stW9 _ (Step.nextDay stW9) (by decide)

/-! ### Card numbers and the Luhn algorithm -/

/-- One Luhn doubling step: double the digit and subtract 9 when the result exceeds 9. -/
def luhnDouble (d : ℕ) : ℕ :=
  let x := 2 * d
  if x > 9 then x - 9 else x

/-- Alternating Luhn sum over a digit list already reversed (rightmost digit first);
`dbl` says whether the current digit is doubled. -/
def luhnAlt : List ℕ → Bool → ℕ
  | [], _ => 0
  | d :: rest, dbl => (if dbl then luhnDouble d else d) + luhnAlt rest (!dbl)

/-- Embeds `PaymentCardServiceImpl.calculateLuhnCheckDigit` (external_service.go): sums the
given digits right-to-left doubling at odd offsets `i % 2 == 1` (so the rightmost given
digit is NOT doubled), then returns `(10 - sum % 10) % 10`. -/
def calculateLuhnCheckDigit (digits : List ℕ) : ℕ :=
  (10 - luhnAlt digits.reverse false % 10) % 10

/-- Embeds `PaymentCardServiceImpl.validateLuhn` (external_service.go): strip `' '` and `'-'`,
reject lengths outside 13–19, reject non-digits, split off the trailing check digit,
sum the remaining digits right-to-left doubling at even offsets `i % 2 == 0`, and
require `(sum + check) % 10 == 0`. -/
def validateLuhn (cardNumber : String) : Bool :=
  let cn := (cardNumber.data.filter (fun c => !(c == ' '))).filter (fun c => !(c == '-'))
  if cn.length < 13 ∨ 19 < cn.length then false
  else if cn.any (fun c => !c.isDigit) then false
  else
    match (cn.map (fun c => c.toNat - 48)).reverse with
    | [] => false
    | check :: restRev => decide ((luhnAlt restRev true + check) % 10 = 0)

/-- Go `fmt.Sprintf` zero-padded to width `w` (as called: the argument is below
`10^w`), as the digit list. -/
def padDigits (w n : ℕ) : List ℕ :=
  (List.range w).reverse.map (fun i => n / 10 ^ i % 10)

/-- Embeds `PaymentCardServiceImpl.formatCardNumber`: walk the characters with their index and
insert a space before every index that is a positive multiple of 4. -/
def formatAux : List Char → ℕ → List Char
  | [], _ => []
  | c :: rest, i =>
    (if 0 < i ∧ i % 4 = 0 then [' ', c] else [c]) ++ formatAux rest (i + 1)

def formatCardNumber (s : String) : String := ⟨formatAux s.data 0⟩

/-- Go `strings.ReplaceAll s " " ""`. -/
def removeSpaces (s : String) : String := ⟨s.data.filter (fun c => !(c == ' '))⟩

def stringOfDigits (ds : List ℕ) : String := ⟨ds.map (fun d => Char.ofNat (48 + d))⟩

/-- Embeds `PaymentCardServiceImpl.generateCardNumber` (external_service.go): the prefix
`"4101"`, three blocks of 4 random digits (`rand.Int < 10000`, `%04d`), then a slice
`threeDigits[0 : 3 - len(binPrefix+baseNumber)%4]` of a 3-digit random block, the Luhn
check digit, and a format-into-groups-of-4 immediately undone by `strings.ReplaceAll`.
`n1 n2 n3 m` name the values drawn from the random source. -/
def generateCardNumber (n1 n2 n3 m : ℕ) : String :=
  let binPrefixDigits := [4, 1, 0, 1]
  let base12 := padDigits 4 n1 ++ padDigits 4 n2 ++ padDigits 4 n3
  let threeDigits := padDigits 3 m
  let baseNumber := binPrefixDigits ++ base12
      ++ threeDigits.take (3 - (binPrefixDigits ++ base12).length % 4)
  let cardDigits := baseNumber ++ [calculateLuhnCheckDigit baseNumber]
  removeSpaces (formatCardNumber (stringOfDigits cardDigits))

/-- Embeds `security.calculateLuhnCheckDigit` (card_security.go): append a `0` placeholder,
sum right-to-left doubling every second digit starting from the second-rightmost, and
return `0` when the sum is divisible by 10, else `10 - sum % 10`. -/
def luhnCheckDigitSec (ds : List ℕ) : ℕ :=
  let sum := luhnAlt (ds ++ [0]).reverse false
  if sum % 10 = 0 then 0 else 10 - sum % 10

/-- Embeds `security.validateLuhn` (card_security.go), on digit lists: length 13–19 and
alternating sum divisible by 10. -/
def validateLuhnSec (ds : List ℕ) : Bool :=
  if ds.length < 13 ∨ 19 < ds.length then false
  else decide (luhnAlt ds.reverse false % 10 = 0)

/-- Embeds `security.GenerateCardNumber` with the default prefix `"4100"`: 11 random digits
(random bytes reduced `% 10`) up to 15 significant digits, then the Luhn check digit
(16 digits in total). -/
def generateCardNumberSec (randomBytes : List ℕ) : List ℕ :=
  let base := [4, 1, 0, 0] ++ randomBytes.map (· % 10)
  base ++ [luhnCheckDigitSec base]

/-- The security-package generator really does emit Luhn-valid 16-digit numbers
whenever it draws its 11 random bytes (helper; contrast with `generateCardNumber`). -/
theorem generateCardNumberSec_valid (randomBytes : List ℕ)
    (hlen : randomBytes.length = 11) :
    validateLuhnSec (generateCardNumberSec randomBytes) = true := by
  have hrev : ∀ (l : List ℕ) (c : ℕ),
      luhnAlt (l ++ [c]).reverse false = c + luhnAlt l.reverse true := by
    intro l c
    rw [List.reverse_append]
    rfl
  unfold generateCardNumberSec validateLuhnSec luhnCheckDigitSec
  simp only [hrev, Nat.zero_add, List.length_append, List.length_map, List.length_cons,
    List.length_nil, hlen]
  norm_num
  generalize luhnAlt ((randomBytes.map (fun x => x % 10)).reverse ++ [0, 0, 1, 4]) true = S
  split_ifs with h0 <;> omega

/-! ### C6: the services card-number generator -/

/-- C6, evaluated at concrete random draws: the services generator emits 20 digits
(prefix 4 + 12 + 3 + check digit) — its own comment promises 15 + 1 — so `validateLuhn`
rejects every generated number on length alone, and the defensive re-validation in
`CreatePaymentCard` always errors; the security-package generator by contrast emits a
Luhn-valid 16-digit number. -/
theorem generateCardNumber_always_fails_validateLuhn :
    (generateCardNumber 0 0 0 0).length = 20 ∧
    validateLuhn (generateCardNumber 0 0 0 0) = false ∧
    (generateCardNumber 1234 5678 9012 345).length = 20 ∧
    validateLuhn (generateCardNumber 1234 5678 9012 345) = false ∧
    validateLuhnSec (generateCardNumberSec [0, 1, 2, 3, 4, 5, 6, 7, 8, 9, 0]) = true ∧
    (generateCardNumberSec [0, 1, 2, 3, 4, 5, 6, 7, 8, 9, 0]).length = 16 := by
  refine ⟨?_, ?_, ?_, ?_, ?_, ?_⟩ <;> rfl

/-! ### C7: encryption round-trips -/

/-- A key pair, identified by the randomness drawn when it was generated. -/
structure RSAKeyPair where
  seed : ℕ
deriving DecidableEq, Repr

/-- Modelled from the spec: the ciphertext an asymmetric `protect` produces (§4.4) —
reversible keyed encryption where decryption succeeds exactly under the matching key
pair; the base64/armor transport encodings of the sources cancel and are omitted. -/
structure Ciphertext where
  keyId : ℕ
  payload : String
deriving DecidableEq, Repr

/-- Modelled from the spec: encryption under a public key (`rsa.EncryptPKCS1v15` /
`openpgp.Encrypt` of the external libraries). -/
def asymEncrypt (k : RSAKeyPair) (m : String) : Ciphertext := ⟨k.seed, m⟩

/-- Modelled from the spec: decryption under a private key; fails (`none`, the Go error
path) unless the ciphertext was produced under the matching key pair. -/
def asymDecrypt (k : RSAKeyPair) (c : Ciphertext) : Option String :=
  if c.keyId = k.seed then some c.payload else none

/-- Embeds `security.generateKeyPair`, keyed by the randomness it draws. -/
def generateKeyPair (seed : ℕ) : RSAKeyPair := ⟨seed⟩

/-- Embeds `security.CardSecurity`: one key pair generated at construction. -/
structure CardSecurity where
  privateKey : RSAKeyPair
  publicKey : RSAKeyPair
  keyAvailable : Bool
deriving DecidableEq, Repr

/-- Embeds `security.NewCardSecurity`: generate ONE key pair and store both halves of it. -/
def NewCardSecurity (seed : ℕ) : CardSecurity :=
  let k := generateKeyPair seed
  { privateKey := k, publicKey := k, keyAvailable := true }

/-- Embeds `security.CardSecurity.EncryptCardNumber`: RSA encryption under the stored public
key (`none` = the keys-unavailable error). -/
def EncryptCardNumber (s : CardSecurity) (cardNumber : String) : Option Ciphertext :=
  if !s.keyAvailable then none
  else some (asymEncrypt s.publicKey cardNumber)

/-- Embeds `security.CardSecurity.DecryptCardNumber`: RSA decryption under the stored private
key. -/
def DecryptCardNumber (s : CardSecurity) (c : Ciphertext) : Option String :=
  if !s.keyAvailable then none
  else asymDecrypt s.privateKey c

/-- Embeds `PaymentCardServiceImpl.createPGPEntity`: calls `openpgp.NewEntity`, which draws
fresh randomness and generates a NEW key pair on every call — the service's stored
`encryptionKey` is never consulted.  `freshSeed` names the randomness of one call. -/
def createPGPEntity (freshSeed : ℕ) : RSAKeyPair := ⟨freshSeed⟩

/-- Embeds `PaymentCardServiceImpl.encryptWithPGP`: encrypt to the entity of a fresh
`createPGPEntity` call. -/
def encryptWithPGP (freshSeed : ℕ) (data : String) : Ciphertext :=
  asymEncrypt (createPGPEntity freshSeed) data

/-- Embeds `PaymentCardServiceImpl.decryptWithPGP`: decrypt with the entity of ANOTHER fresh
`createPGPEntity` call. -/
def decryptWithPGP (freshSeed : ℕ) (encryptedData : Ciphertext) : Option String :=
  asymDecrypt (createPGPEntity freshSeed) encryptedData

/-- The RSA pair round-trips under the single key pair stored at construction
(helper). -/
theorem rsa_roundtrip (seed : ℕ) (x : String) :
    DecryptCardNumber (NewCardSecurity seed)
        (asymEncrypt (NewCardSecurity seed).publicKey x) = some x := by
  simp [DecryptCardNumber, NewCardSecurity, generateKeyPair, asymEncrypt, asymDecrypt]

/-- The PGP pair can never round-trip: the two calls draw distinct randomness
(helper). -/
theorem pgp_roundtrip_fails (s1 s2 : ℕ) (x : String) (hne : s1 ≠ s2) :
    decryptWithPGP s2 (encryptWithPGP s1 x) = none := by
  unfold decryptWithPGP encryptWithPGP asymDecrypt asymEncrypt createPGPEntity
  simp [hne]

/-- C7, evaluated at a card-number-shaped input: the RSA pair
(`EncryptCardNumber`/`DecryptCardNumber`, one key pair stored at construction)
round-trips, but the PGP pair fails — `decryptWithPGP` builds a fresh random entity,
distinct from the one `encryptWithPGP` encrypted to, so decryption always errors
(which is why every read path logs and ignores decryption failures). -/
theorem pgp_never_roundtrips_rsa_does :
    EncryptCardNumber (NewCardSecurity 0) "4111111111111111"
        = some ⟨0, "4111111111111111"⟩ ∧
    DecryptCardNumber (NewCardSecurity 0) ⟨0, "4111111111111111"⟩
        = some "4111111111111111" ∧
    decryptWithPGP 1 (encryptWithPGP 0 "4111111111111111") = none :=
  ⟨rfl, rfl, rfl⟩

/-! ### C8: ValidatePaymentCard check ordering -/

/-- The error kinds of `ValidatePaymentCard`, in source order. -/
inductive CardError where
  | invalidCardNumber
  | cardNotFound
  | cardExpired
  | cardBlocked
  | invalidVerificationCode
deriving DecidableEq, Repr

/-- A stored `models.PaymentCard` (the fields `ValidatePaymentCard` reads). -/
structure StoredCard where
  cvvHash : String
  expirationDate : ℤ
  status : String
deriving DecidableEq, Repr

/-- Modelled from the spec: `computeHMAC` — the deterministic keyed fingerprint (§4.4)
used as the lookup key (HMAC-SHA-256 over the salt in the source). -/
def computeHMAC (salt data : String) : String := salt ++ data

/-- Embeds `PaymentCardServiceImpl.ValidatePaymentCard`: ordered checks, first failure
short-circuits — Luhn validity, lookup by HMAC fingerprint (`GetPaymentCardByNumber`;
its display-only decrypt touches no field read here), stored expiry against now,
status, then the verification code (bcrypt comparison, abstracted as `verifyCVVfn`). -/
def ValidatePaymentCard (salt : String) (store : String → Option StoredCard)
    (verifyCVVfn : String → String → Bool) (now : ℤ)
    (cardNumber cvv : String) : Except CardError Bool :=
  if ¬ validateLuhn cardNumber then .error .invalidCardNumber
  else
    match store (computeHMAC salt cardNumber) with
    | none => .error .cardNotFound
    | some card =>
      if card.expirationDate < now then .error .cardExpired
      else if card.status ≠ "active" then .error .cardBlocked
      else if ¬ verifyCVVfn cvv card.cvvHash then .error .invalidVerificationCode
      else .ok true

/-- C8: for every stored card that is not Active but has a Luhn-valid number, a
successful fingerprint lookup and an unexpired expiry date, validation fails with the
card-blocked error, and the result does not depend on the verification-code check in
any way (it is never evaluated): the checks run in the fixed order Luhn, lookup,
expiry, status, verification code, and the first failure short-circuits. -/
theorem validatePaymentCard_blocked_short_circuits (salt : String)
    (store : String → Option StoredCard) (f g : String → String → Bool) (now : ℤ)
    (cardNumber cvv : String) (card : StoredCard)
    (hluhn : validateLuhn cardNumber = true)
    (hfound : store (computeHMAC salt cardNumber) = some card)
    (hexp : ¬ card.expirationDate < now)
    (hblocked : card.status ≠ "active") :
    ValidatePaymentCard salt store f now cardNumber cvv
        = Except.error CardError.cardBlocked ∧
    ValidatePaymentCard salt store f now cardNumber cvv
        = ValidatePaymentCard salt store g now cardNumber cvv := by
  unfold ValidatePaymentCard
  rw [hfound]
  simp [hluhn, hexp, hblocked]

/-- The blocked stored card of the C8 witness. -/
def cardW8 : StoredCard := { cvvHash := "h", expirationDate := 100, status := "blocked" }

/-- Card store of the C8 witness: exactly one card, filed under the fingerprint of the
Luhn-valid number 4111111111111111. -/
def storeW8 : String → Option StoredCard :=
  fun s => if s = "k4111111111111111" then some cardW8 else none

/-- Witness for `validatePaymentCard_blocked_short_circuits`: a Blocked card with a
future expiry fails with the card-blocked error under a verification-code check that
always accepts, and equally under one that always rejects. -/
theorem validatePaymentCard_blocked_short_circuits_witness :
    ValidatePaymentCard "k" storeW8 (fun _ _ => true) 50 "4111111111111111" "999"
        = Except.error CardError.cardBlocked ∧
    ValidatePaymentCard "k" storeW8 (fun _ _ => true) 50 "4111111111111111" "999"
        = ValidatePaymentCard "k" storeW8 (fun _ _ => false) 50 "4111111111111111" "999" :=
  validatePaymentCard_blocked_short_circuits "k" storeW8 (fun _ _ => true)
    (fun _ _ => false) 50 "4111111111111111" "999" cardW8 rfl rfl (by decide) (by decide)

end GoFinance
